import Mathlib

/-!
Verification of the resilience / caching / authorization core of the
EODHD-MCP-Server repository, via a shallow embedding of the Python code into
Lean 4.  Timestamps are modelled as integers, remote I/O outcomes as explicit
oracle parameters, and exceptions as data flowing through explicitly modelled
handler chains.
-/

namespace EODHD

/-! ## TTLCache (`app/cache.py`)

The in-process LRU cache with per-entry TTL.  `OrderedDict` order is modelled
as list order: head = least recently used, last = most recently used.
Timestamps and TTLs are integers; the current time is an explicit argument.
-/

namespace TTLCache

/-- State of a `TTLCache` instance (`app/cache.py`, class `TTLCache`).
`entries` mirrors `self._cache : OrderedDict[str, tuple[Any, float]]`
as a list of `(key, value, expiry)` triples in `OrderedDict` order. -/
structure Cache (V : Type) where
  entries : List (String × V × Int)
  maxsize : Nat
  defaultTtl : Int
  hits : Nat
  misses : Nat
deriving Repr

/-- A fresh cache, as built by `TTLCache.__init__`. -/
def mk (V : Type) (maxsize : Nat) (defaultTtl : Int) : Cache V :=
  { entries := [], maxsize := maxsize, defaultTtl := defaultTtl, hits := 0, misses := 0 }

/-- Remove every binding of `key` (Python `del self._cache[key]`; keys are
unique in an `OrderedDict`, so filtering is equivalent). -/
def removeKey {V : Type} (entries : List (String × V × Int)) (key : String) :
    List (String × V × Int) :=
  entries.filter (fun e => !(e.1 == key))

/-- `TTLCache.get`: miss on unknown key; lazy eviction plus miss when
`time.time() > expiry`; on a hit, bump recency (`move_to_end`) and the hit
counter, and return the value. -/
def get {V : Type} (now : Int) (key : String) (c : Cache V) : Option V × Cache V :=
  match c.entries.find? (fun e => e.1 == key) with
  | none => (none, { c with misses := c.misses + 1 })
  | some (_, v, exp) =>
    if now > exp then
      (none, { c with entries := removeKey c.entries key, misses := c.misses + 1 })
    else
      (some v, { c with entries := removeKey c.entries key ++ [(key, v, exp)],
                        hits := c.hits + 1 })

/-- `ttl = ttl or self._default_ttl`: Python treats `None` and `0` as falsy,
so both select the default TTL. -/
def effTtl {V : Type} (c : Cache V) (ttl : Option Int) : Int :=
  match ttl with
  | none => c.defaultTtl
  | some t => if t = 0 then c.defaultTtl else t

/-- `TTLCache.set`: delete any existing binding, append the new entry at the
most-recently-used end, then `popitem(last=False)` from the front while the
size exceeds `maxsize`. -/
def set {V : Type} (now : Int) (key : String) (v : V) (ttl : Option Int) (c : Cache V) :
    Cache V :=
  let expiry := now + effTtl c ttl
  let e1 := removeKey c.entries key ++ [(key, v, expiry)]
  { c with entries := e1.drop (e1.length - c.maxsize) }

/-- `TTLCache.delete`. -/
def delete {V : Type} (key : String) (c : Cache V) : Bool × Cache V :=
  if c.entries.any (fun e => e.1 == key) then
    (true, { c with entries := removeKey c.entries key })
  else
    (false, c)

/-- `TTLCache.clear`: drop all entries and reset both counters. -/
def clear {V : Type} (c : Cache V) : Cache V :=
  { c with entries := [], hits := 0, misses := 0 }

/-- `TTLCache.cleanup`: eagerly purge the entries whose expiry has passed and
report how many were removed. -/
def cleanup {V : Type} (now : Int) (c : Cache V) : Nat × Cache V :=
  let expired := c.entries.filter (fun e => now > e.2.2)
  (expired.length, { c with entries := c.entries.filter (fun e => !(now > e.2.2)) })

/-- One cache operation, for stating invariants over arbitrary call
sequences. -/
inductive Op (V : Type) where
  | get (now : Int) (key : String)
  | set (now : Int) (key : String) (v : V) (ttl : Option Int)
  | delete (key : String)
  | clear
  | cleanup (now : Int)

/-- Apply one operation to the cache state. -/
def applyOp {V : Type} (c : Cache V) : Op V → Cache V
  | .get now key => (get now key c).2
  | .set now key v ttl => set now key v ttl c
  | .delete key => (delete key c).2
  | .clear => clear c
  | .cleanup now => (cleanup now c).2

/-- Run a sequence of operations. -/
def run {V : Type} (c : Cache V) (ops : List (Op V)) : Cache V :=
  ops.foldl applyOp c

lemma applyOp_maxsize {V : Type} (c : Cache V) (op : Op V) :
    (applyOp c op).maxsize = c.maxsize := by
  cases op with
  | get now key =>
    simp only [applyOp, get]
    cases c.entries.find? (fun e => e.1 == key) with
    | none => rfl
    | some p =>
      obtain ⟨k, v, exp⟩ := p
      by_cases h : now > exp
      · simp [h]
      · simp [h]
  | set now key v ttl => rfl
  | delete key =>
    simp only [applyOp, delete]
    by_cases h : c.entries.any (fun e => e.1 == key)
    · simp [h]
    · simp [h]
  | clear => rfl
  | cleanup now => rfl

lemma applyOp_size_le {V : Type} (c : Cache V) (op : Op V)
    (hc : c.entries.length ≤ c.maxsize) :
    (applyOp c op).entries.length ≤ (applyOp c op).maxsize := by
  rw [applyOp_maxsize]
  cases op with
  | get now key =>
    simp only [applyOp, get]
    cases hf : c.entries.find? (fun e => e.1 == key) with
    | none => exact hc
    | some p =>
      obtain ⟨k, v, exp⟩ := p
      have hmem := List.mem_of_find?_eq_some hf
      have hlt : (removeKey c.entries key).length < c.entries.length := by
        apply List.length_filter_lt_length_iff_exists.mpr
        exact ⟨(k, v, exp), hmem, by simpa using List.find?_some hf⟩
      by_cases h : now > exp
      · simp only [h, if_true]
        exact le_trans (le_of_lt hlt) hc
      · simp only [h, if_false, List.length_append, List.length_singleton]
        omega
  | set now key v ttl =>
    simp only [applyOp, set, List.length_drop]
    omega
  | delete key =>
    simp only [applyOp, delete]
    by_cases h : c.entries.any (fun e => e.1 == key)
    · simp only [h, if_true]
      exact le_trans (List.length_filter_le _ _) hc
    · simp only [h, if_false]
      exact hc
  | clear => simp [applyOp, clear]
  | cleanup now =>
    simp only [applyOp, cleanup]
    exact le_trans (List.length_filter_le _ _) hc

lemma run_size_le {V : Type} (ops : List (Op V)) (c : Cache V)
    (hc : c.entries.length ≤ c.maxsize) :
    (run c ops).entries.length ≤ (run c ops).maxsize := by
  induction ops generalizing c with
  | nil => exact hc
  | cons op rest ih =>
    simp only [run, List.foldl_cons]
    exact ih (applyOp c op) (applyOp_size_le c op hc)

lemma run_maxsize {V : Type} (ops : List (Op V)) (c : Cache V) :
    (run c ops).maxsize = c.maxsize := by
  induction ops generalizing c with
  | nil => rfl
  | cons op rest ih =>
    simp only [run, List.foldl_cons] at ih ⊢
    rw [ih (applyOp c op), applyOp_maxsize]

lemma get_eq_some {V : Type} {c : Cache V} {now : Int} {key : String} {v : V}
    (h : (get now key c).1 = some v) :
    ∃ exp, c.entries.find? (fun e => e.1 == key) = some (key, v, exp) ∧ ¬ now > exp := by
  cases hf : c.entries.find? (fun e => e.1 == key) with
  | none => simp [get, hf] at h
  | some p =>
    obtain ⟨k', v', exp⟩ := p
    have hk : k' = key := by
      have := List.find?_some hf
      simpa using this
    by_cases hexp : now > exp
    · simp [get, hf, hexp] at h
    · refine ⟨exp, ?_, hexp⟩
      simp [get, hf, hexp] at h
      rw [hk, h]

lemma removeKey_not_mem {V : Type} (entries : List (String × V × Int)) (key : String) :
    ∀ x ∈ removeKey entries key, (x.1 == key) = false := by
  intro x hx
  have := List.of_mem_filter hx
  simpa using this

/-- The three-set LRU demonstration cache from the spec example
(maxSize = 2, keys a, b, c in that order). -/
def lruDemo : Cache Nat :=
  set 0 "c" 3 none (set 0 "b" 2 none (set 0 "a" 1 none (mk Nat 2 300)))

end TTLCache

/-- C7: over every sequence of TTLCache operations started from a fresh cache,
the entry count never exceeds `maxSize`; `get` never returns a value whose
expiry time has passed (a hit always comes from an unexpired stored entry);
a successful `get` leaves its entry in the most-recently-used (last) position;
and with maxSize = 2, set(a), set(b), set(c) leaves a absent while b and c are
still present (LRU eviction). -/
theorem claim_C7_ttlcache_invariants :
    (∀ (V : Type) (ops : List (TTLCache.Op V)) (ms : Nat) (dt : Int),
       (TTLCache.run (TTLCache.mk V ms dt) ops).entries.length ≤ ms) ∧
    (∀ (V : Type) (c : TTLCache.Cache V) (now : Int) (key : String) (v : V),
       (TTLCache.get now key c).1 = some v →
       ∃ exp, (key, v, exp) ∈ c.entries ∧ ¬ now > exp) ∧
    (∀ (V : Type) (c : TTLCache.Cache V) (now : Int) (key : String) (v : V),
       (TTLCache.get now key c).1 = some v →
       ∃ exp, ((TTLCache.get now key c).2).entries.getLast? = some (key, v, exp)) ∧
    ((TTLCache.get 0 "a" TTLCache.lruDemo).1 = none ∧
     (TTLCache.get 0 "b" TTLCache.lruDemo).1 = some 2 ∧
     (TTLCache.get 0 "c" TTLCache.lruDemo).1 = some 3) := by
  refine ⟨?_, ?_, ?_, by decide⟩
  · intro V ops ms dt
    have h := TTLCache.run_size_le ops (TTLCache.mk V ms dt) (by simp [TTLCache.mk])
    rwa [TTLCache.run_maxsize] at h
  · intro V c now key v h
    obtain ⟨exp, hf, hexp⟩ := TTLCache.get_eq_some h
    exact ⟨exp, List.mem_of_find?_eq_some hf, hexp⟩
  · intro V c now key v h
    obtain ⟨exp, hf, hexp⟩ := TTLCache.get_eq_some h
    refine ⟨exp, ?_⟩
    simp only [TTLCache.get, hf, hexp, if_false]
    exact List.getLast?_concat _

/-- Concrete instantiation of the hypothesis-bearing parts of the C7 theorem:
a cache where a `get` hit occurs, showing the returned value is unexpired and
bumped to the most-recently-used position. -/
theorem claim_C7_ttlcache_invariants_witness :
    (∃ exp, ("a", 5, exp) ∈ (TTLCache.set 0 "a" 5 none (TTLCache.mk Nat 2 300)).entries ∧
       ¬ (0 : Int) > exp) ∧
    (∃ exp, ((TTLCache.get 0 "a" (TTLCache.set 0 "a" 5 none
        (TTLCache.mk Nat 2 300))).2).entries.getLast? = some ("a", 5, exp)) :=
  ⟨claim_C7_ttlcache_invariants.2.1 Nat _ 0 "a" 5 (by decide),
   claim_C7_ttlcache_invariants.2.2.1 Nat _ 0 "a" 5 (by decide)⟩

lemma find?_drop_concat {V : Type} (L : List (String × V × Int)) (key : String) (v : V)
    (exp : Int) (ms : Nat) (h1 : 1 ≤ ms)
    (hL : ∀ x ∈ L, (x.1 == key) = false) :
    ((L ++ [(key, v, exp)]).drop ((L ++ [(key, v, exp)]).length - ms)).find?
        (fun e => e.1 == key) = some (key, v, exp) := by
  have hlen : (L ++ [(key, v, exp)]).length - ms ≤ L.length := by
    simp only [List.length_append, List.length_singleton]
    omega
  rw [List.drop_append_of_le_length hlen, List.find?_append]
  have hnone : (L.drop ((L ++ [(key, v, exp)]).length - ms)).find?
      (fun e => e.1 == key) = none := by
    apply List.find?_eq_none.mpr
    intro x hx
    simp [hL x (List.mem_of_mem_drop hx)]
  rw [hnone]
  simp [List.find?]

lemma find?_after_set {V : Type} (c : TTLCache.Cache V) (now : Int) (key : String) (v : V)
    (ttl : Option Int) (h1 : 1 ≤ c.maxsize) :
    (TTLCache.set now key v ttl c).entries.find? (fun e => e.1 == key)
      = some (key, v, now + TTLCache.effTtl c ttl) := by
  simp only [TTLCache.set]
  exact find?_drop_concat (TTLCache.removeKey c.entries key) key v
    (now + TTLCache.effTtl c ttl) c.maxsize h1 (TTLCache.removeKey_not_mem c.entries key)

/-- C10: `TTLCache.set` with `ttl = 0` does not create an immediately expired
entry: a falsy ttl selects the default TTL (so `set key v 0` equals
`set key v None`), and an immediate `get` returns the value (for a cache with
capacity at least 1 and a nonnegative default TTL, the constructor defaults
being 1000 and 300). -/
theorem claim_C10_set_ttl_zero (V : Type) (c : TTLCache.Cache V) (now : Int)
    (key : String) (v : V) (h1 : 1 ≤ c.maxsize) (h2 : 0 ≤ c.defaultTtl) :
    TTLCache.set now key v (some 0) c = TTLCache.set now key v none c ∧
    (TTLCache.get now key (TTLCache.set now key v (some 0) c)).1 = some v := by
  constructor
  · simp [TTLCache.set, TTLCache.effTtl]
  · have hf := find?_after_set c now key v (some 0) h1
    have heff : TTLCache.effTtl c (some 0) = c.defaultTtl := by
      simp [TTLCache.effTtl]
    rw [heff] at hf
    have hexp : ¬ now > now + c.defaultTtl := by omega
    simp [TTLCache.get, hf, hexp]

/-- Concrete instantiation of C10: `set "k" 7 0` on a fresh default-size cache
stores with the default TTL and an immediate `get` returns 7. -/
theorem claim_C10_set_ttl_zero_witness :
    TTLCache.set 0 "k" 7 (some 0) (TTLCache.mk Nat 1000 300)
      = TTLCache.set 0 "k" 7 none (TTLCache.mk Nat 1000 300) ∧
    (TTLCache.get 0 "k" (TTLCache.set 0 "k" 7 (some 0) (TTLCache.mk Nat 1000 300))).1
      = some 7 :=
  claim_C10_set_ttl_zero Nat (TTLCache.mk Nat 1000 300) 0 "k" 7 (by decide) (by decide)

/-! ## RetryingRequestEngine (`app/api_client.py`)

`make_request` / `make_post_request` with retry, backoff and 429 handling.
The HTTP world is an oracle `outcomes : Nat → Outcome J` giving, for each loop
iteration index, what the dispatched request produced (a response, a timeout,
a transport error, or an unexpected exception); `J` is the type of decoded
JSON documents.  Python exceptions are data routed through an explicit model
of the `except` clause chain, so that an exception no clause catches would
surface as an `Except.error`.  Sleeps are recorded as trace events. -/

namespace ApiClient

deriving instance DecidableEq for Except

/-- `RETRY_DELAY_BASE = 1.0` (exactly representable, modelled in ℚ). -/
def RETRY_DELAY_BASE : ℚ := 1

/-- `RETRY_DELAY_MAX = 10.0`. -/
def RETRY_DELAY_MAX : ℚ := 10

/-- `MAX_RETRIES = 3`. -/
def MAX_RETRIES : Nat := 3

/-- `_calculate_retry_delay`: capped exponential backoff. -/
def calculateRetryDelay (attempt : Nat) : ℚ :=
  min (RETRY_DELAY_BASE * 2 ^ attempt) RETRY_DELAY_MAX

/-- Python exception classes relevant to `make_request`:
`httpx.TimeoutException`, `httpx.HTTPStatusError`, `httpx.RequestError`,
`ValueError` (from `int()` and JSON decoding) and a generic `Exception`. -/
inductive ExcClass where
  | timeoutC
  | httpStatusC
  | requestC
  | valueC
  | genericC
deriving DecidableEq, Repr

/-- Subclass test used to decide which `except` clause catches an exception.
In `httpx`, `TimeoutException` derives `RequestError`; every class derives
`Exception`. -/
def isSubclass (c handler : ExcClass) : Bool :=
  match handler with
  | .genericC => true
  | .requestC => c == .requestC || c == .timeoutC
  | .timeoutC => c == .timeoutC
  | .httpStatusC => c == .httpStatusC
  | .valueC => c == .valueC

/-- A raised Python exception: its class, the status code when it is an
`HTTPStatusError`, and its `str(e)` rendering. -/
structure Exc where
  cls : ExcClass
  status : Option Nat
  msg : String
deriving DecidableEq, Repr

/-- Content-type classification done by `make_request` on a 2xx body:
`application/json`, `text/csv` or `text/plain` (both handled identically),
or anything else. -/
inductive CType where
  | appJson
  | textCsvOrPlain
  | otherCt
deriving DecidableEq, Repr

/-- The Retry-After header of a 429 response: absent, a numeric string, or a
non-numeric string on which `int()` raises `ValueError`. -/
inductive RA where
  | num (n : Nat)
  | malformed (msg : String)
deriving DecidableEq, Repr

/-- An HTTP response as `make_request` inspects it: status code, Retry-After
header, content type, the outcome of `response.json()` (a decoded document or
the message of the decode error it raises), the raw text, and the `str` of the
`HTTPStatusError` that `raise_for_status` would raise. -/
structure Resp (J : Type) where
  status : Nat
  retryAfter : Option RA
  ctype : CType
  jsonParse : Except String J
  text : String
  statusMsg : String
deriving DecidableEq, Repr

/-- What one dispatched request produced. -/
inductive Outcome (J : Type) where
  | resp (r : Resp J)
  | timeoutExc (msg : String)
  | transportExc (msg : String)
  | otherExc (msg : String)
deriving DecidableEq, Repr

/-- The value `make_request` returns: a decoded JSON payload, a
`{"csv": text}` wrap, a `{"text": text}` wrap, or a structured
`{"error": msg}` dict. -/
inductive RValue (J : Type) where
  | payload (p : J)
  | csvWrap (text : String)
  | textWrap (text : String)
  | errorDict (msg : String)
deriving DecidableEq, Repr

/-- Observable events of one `make_request` call: a dispatched request, the
429 sleep, or a backoff sleep. -/
inductive Ev where
  | dispatch
  | sleep429 (secs : Nat)
  | backoff (secs : ℚ)
deriving DecidableEq, Repr

/-- Control flow out of the `try` body for one attempt: a `return`, a 429
`continue` after sleeping, or a raised exception. -/
inductive Ctl (J : Type) where
  | ret (v : RValue J)
  | cont429 (secs : Nat)
  | raised (e : Exc)
deriving DecidableEq, Repr

/-- The `try` body of one attempt of `make_request`, given what the dispatched
request produced: 429 handling (sleep on the parsed Retry-After hint,
defaulting to 60), `raise_for_status`, then content-type-directed parsing. -/
def attemptStep {J : Type} : Outcome J → Ctl J
  | .timeoutExc m => .raised ⟨.timeoutC, none, m⟩
  | .transportExc m => .raised ⟨.requestC, none, m⟩
  | .otherExc m => .raised ⟨.genericC, none, m⟩
  | .resp r =>
    if r.status == 429 then
      match r.retryAfter with
      | none => .cont429 60
      | some (.num n) => .cont429 n
      | some (.malformed m) => .raised ⟨.valueC, none, m⟩
    else if 400 ≤ r.status ∧ r.status < 600 then
      .raised ⟨.httpStatusC, some r.status, r.statusMsg⟩
    else
      match r.ctype with
      | .appJson =>
        match r.jsonParse with
        | .ok j => .ret (.payload j)
        | .error m => .raised ⟨.valueC, none, m⟩
      | .textCsvOrPlain => .ret (.csvWrap r.text)
      | .otherCt =>
        match r.jsonParse with
        | .ok j => .ret (.payload j)
        | .error _ => .ret (.textWrap r.text)

/-- Effect of a matched `except` clause: return a value now, or record the
exception as `last_error` and stay retry-eligible. -/
inductive HRes (J : Type) where
  | ret (v : RValue J)
  | setLast (msg : String)
deriving DecidableEq, Repr

/-- The ordered `except` clause chain of `make_request`: `TimeoutException`,
`HTTPStatusError` (returning immediately on a non-429 4xx), `RequestError`,
then a bare `Exception` clause; `none` means no clause caught the
exception. -/
def handle {J : Type} (e : Exc) : Option (HRes J) :=
  if isSubclass e.cls .timeoutC then some (.setLast e.msg)
  else if isSubclass e.cls .httpStatusC then
    match e.status with
    | some st =>
      if 400 ≤ st ∧ st < 500 ∧ st ≠ 429 then
        some (.ret (.errorDict ("HTTP " ++ toString st ++ ": " ++ e.msg)))
      else
        some (.setLast e.msg)
    | none => some (.setLast e.msg)
  else if isSubclass e.cls .requestC then some (.setLast e.msg)
  else if isSubclass e.cls .genericC then some (.ret (.errorDict e.msg))
  else none

/-- The message returned after all retries are exhausted
(`str(last_error)` or the fixed fallback text). -/
def exhaustedMsg : Option String → String
  | some m => m
  | none => "Unknown error after retries"

/-- The `for attempt in range(retries + 1)` loop of `make_request`.
`fuel` is the number of loop iterations still available
(`retries + 1 - attempt`); a 429 `continue` advances the loop variable and so
consumes fuel exactly as an error retry does.  Returns the result and the
trace of dispatches and sleeps, or `Except.error` if an exception escaped
every `except` clause. -/
def mrLoop {J : Type} (outcomes : Nat → Outcome J) (retries : Nat) :
    Nat → Nat → Option String → Except Exc (RValue J × List Ev)
  | 0, _, lastErr => .ok (.errorDict (exhaustedMsg lastErr), [])
  | fuel + 1, attempt, lastErr =>
    match attemptStep (outcomes attempt) with
    | .ret v => .ok (v, [.dispatch])
    | .cont429 s =>
      (mrLoop outcomes retries fuel (attempt + 1) lastErr).map
        (fun p => (p.1, .dispatch :: .sleep429 s :: p.2))
    | .raised e =>
      match handle e with
      | none => .error e
      | some (.ret v) => .ok (v, [.dispatch])
      | some (.setLast m) =>
        if attempt < retries then
          (mrLoop outcomes retries fuel (attempt + 1) (some m)).map
            (fun p => (p.1, .dispatch :: .backoff (calculateRetryDelay attempt) :: p.2))
        else
          (mrLoop outcomes retries fuel (attempt + 1) (some m)).map
            (fun p => (p.1, .dispatch :: p.2))

/-- `make_request url timeout retries`, at the level of outcome streams.
Token injection and rate-limit pacing do not affect the modelled
result/trace. -/
def makeRequest {J : Type} (outcomes : Nat → Outcome J) (retries : Nat) :
    Except Exc (RValue J × List Ev) :=
  mrLoop outcomes retries (retries + 1) 0 none

/-- What the single POST dispatch of `make_post_request` produced. -/
inductive PostOutcome (J : Type) where
  | resp (status : Nat) (jsonParse : Except String J) (statusMsg : String)
  | timeoutExc (msg : String)
  | transportExc (msg : String)
  | otherExc (msg : String)
deriving DecidableEq, Repr

/-- Control flow out of the `try` body of `make_post_request`. -/
inductive PCtl (J : Type) where
  | ret (v : RValue J)
  | raised (e : Exc)
deriving DecidableEq, Repr

/-- The `try` body of `make_post_request`: `raise_for_status`, then
`return response.json()`. -/
def postAttempt {J : Type} : PostOutcome J → PCtl J
  | .timeoutExc m => .raised ⟨.timeoutC, none, m⟩
  | .transportExc m => .raised ⟨.requestC, none, m⟩
  | .otherExc m => .raised ⟨.genericC, none, m⟩
  | .resp st jp sm =>
    if 400 ≤ st ∧ st < 600 then .raised ⟨.httpStatusC, some st, sm⟩
    else
      match jp with
      | .ok j => .ret (.payload j)
      | .error m => .raised ⟨.valueC, none, m⟩

/-- The single `except Exception` clause of `make_post_request`. -/
def handlePost {J : Type} (e : Exc) : Option (RValue J) :=
  if isSubclass e.cls .genericC then some (.errorDict e.msg) else none

/-- `make_post_request`: one attempt, no retry, failures wrapped. -/
def makePostRequest {J : Type} (o : PostOutcome J) : Except Exc (RValue J) :=
  match postAttempt o with
  | .ret v => .ok v
  | .raised e =>
    match handlePost (J := J) e with
    | some v => .ok v
    | none => .error e

/-- An outcome whose exception path records `last_error` and stays
retry-eligible (5xx after `raise_for_status`, timeout, transport error),
together with the `str(e)` message recorded. -/
def retriableMsg? {J : Type} (o : Outcome J) : Option String :=
  match attemptStep o with
  | .raised e =>
    match handle (J := J) e with
    | some (.setLast m) => some m
    | _ => none
  | _ => none

/-- The backoff sleep durations appearing in a trace, in order. -/
def backoffsOf (evs : List Ev) : List ℚ :=
  evs.filterMap fun e =>
    match e with
    | .backoff q => some q
    | _ => none

/-- Expected trace of a run whose every attempt fails retry-eligibly:
a dispatch per iteration, with a backoff sleep after each non-final one. -/
def allRetryTrace (retries : Nat) : Nat → Nat → List Ev
  | 0, _ => []
  | f + 1, attempt =>
    if attempt < retries then
      Ev.dispatch :: Ev.backoff (calculateRetryDelay attempt) ::
        allRetryTrace retries f (attempt + 1)
    else
      Ev.dispatch :: allRetryTrace retries f (attempt + 1)

lemma handle_isSome {J : Type} (e : Exc) : (handle (J := J) e).isSome = true := by
  obtain ⟨cls, status, msg⟩ := e
  unfold handle
  split
  · rfl
  · split
    · cases status with
      | none => rfl
      | some st =>
        split
        all_goals first | rfl | (split <;> rfl)
    · split
      · rfl
      · split
        · rfl
        · rename_i hg
          exact absurd rfl hg

lemma mrLoop_ret {J : Type} (outcomes : Nat → Outcome J) {retries fuel attempt : Nat}
    {lastErr : Option String} {v : RValue J}
    (hstep : attemptStep (outcomes attempt) = .ret v) :
    mrLoop outcomes retries (fuel + 1) attempt lastErr = .ok (v, [.dispatch]) := by
  unfold mrLoop
  rw [hstep]

lemma mrLoop_cont429 {J : Type} (outcomes : Nat → Outcome J) {retries fuel attempt : Nat}
    {lastErr : Option String} {s : Nat}
    (hstep : attemptStep (outcomes attempt) = .cont429 s) :
    mrLoop outcomes retries (fuel + 1) attempt lastErr
      = (mrLoop outcomes retries fuel (attempt + 1) lastErr).map
          (fun p => (p.1, .dispatch :: .sleep429 s :: p.2)) := by
  conv_lhs => unfold mrLoop
  rw [hstep]

lemma mrLoop_raised {J : Type} (outcomes : Nat → Outcome J) {retries fuel attempt : Nat}
    {lastErr : Option String} {e : Exc}
    (hstep : attemptStep (outcomes attempt) = .raised e) :
    mrLoop outcomes retries (fuel + 1) attempt lastErr
      = match handle (J := J) e with
        | none => .error e
        | some (.ret v) => .ok (v, [.dispatch])
        | some (.setLast m) =>
          if attempt < retries then
            (mrLoop outcomes retries fuel (attempt + 1) (some m)).map
              (fun p => (p.1, .dispatch :: .backoff (calculateRetryDelay attempt) :: p.2))
          else
            (mrLoop outcomes retries fuel (attempt + 1) (some m)).map
              (fun p => (p.1, .dispatch :: p.2)) := by
  conv_lhs => unfold mrLoop
  rw [hstep]

lemma mrLoop_raised_ret {J : Type} (outcomes : Nat → Outcome J) {retries fuel attempt : Nat}
    {lastErr : Option String} {e : Exc} {v : RValue J}
    (hstep : attemptStep (outcomes attempt) = .raised e)
    (hh : handle (J := J) e = some (.ret v)) :
    mrLoop outcomes retries (fuel + 1) attempt lastErr = .ok (v, [.dispatch]) := by
  rw [mrLoop_raised outcomes hstep, hh]

lemma mrLoop_raised_setLast {J : Type} (outcomes : Nat → Outcome J)
    {retries fuel attempt : Nat} {lastErr : Option String} {e : Exc} {m : String}
    (hstep : attemptStep (outcomes attempt) = .raised e)
    (hh : handle (J := J) e = some (.setLast m)) :
    mrLoop outcomes retries (fuel + 1) attempt lastErr
      = if attempt < retries then
          (mrLoop outcomes retries fuel (attempt + 1) (some m)).map
            (fun p => (p.1, .dispatch :: .backoff (calculateRetryDelay attempt) :: p.2))
        else
          (mrLoop outcomes retries fuel (attempt + 1) (some m)).map
            (fun p => (p.1, .dispatch :: p.2)) := by
  rw [mrLoop_raised outcomes hstep, hh]

lemma retriableMsg?_eq_some {J : Type} {o : Outcome J} {m : String}
    (h : retriableMsg? o = some m) :
    ∃ e, attemptStep o = .raised e ∧ handle (J := J) e = some (.setLast m) := by
  unfold retriableMsg? at h
  cases hstep : attemptStep o with
  | ret v => rw [hstep] at h; simp at h
  | cont429 s => rw [hstep] at h; simp at h
  | raised e =>
    rw [hstep] at h
    simp only [] at h
    cases hh : handle (J := J) e with
    | none => rw [hh] at h; simp at h
    | some hr =>
      cases hr with
      | ret v => rw [hh] at h; simp at h
      | setLast mm =>
        rw [hh] at h
        simp at h
        rw [h] at hh
        exact ⟨e, rfl, hh⟩

lemma mrLoop_isOk {J : Type} (outcomes : Nat → Outcome J) (retries : Nat) :
    ∀ fuel attempt lastErr, ∃ p, mrLoop outcomes retries fuel attempt lastErr = .ok p := by
  intro fuel
  induction fuel with
  | zero => intro attempt lastErr; exact ⟨_, rfl⟩
  | succ f ih =>
    intro attempt lastErr
    cases hstep : attemptStep (outcomes attempt) with
    | ret v => exact ⟨_, mrLoop_ret outcomes hstep⟩
    | cont429 s =>
      obtain ⟨p, hp⟩ := ih (attempt + 1) lastErr
      exact ⟨_, by rw [mrLoop_cont429 outcomes hstep, hp]; rfl⟩
    | raised e =>
      cases hh : handle (J := J) e with
      | none =>
        have := handle_isSome (J := J) e
        rw [hh] at this
        simp at this
      | some hr =>
        cases hr with
        | ret v => exact ⟨_, mrLoop_raised_ret outcomes hstep hh⟩
        | setLast m =>
          rw [mrLoop_raised_setLast outcomes hstep hh]
          by_cases hlt : attempt < retries
          · obtain ⟨p, hp⟩ := ih (attempt + 1) (some m)
            rw [if_pos hlt, hp]
            exact ⟨_, rfl⟩
          · obtain ⟨p, hp⟩ := ih (attempt + 1) (some m)
            rw [if_neg hlt, hp]
            exact ⟨_, rfl⟩

lemma mrLoop_allRetriable {J : Type} (outcomes : Nat → Outcome J) (retries : Nat)
    (msgAt : Nat → String) (hall : ∀ i, retriableMsg? (outcomes i) = some (msgAt i)) :
    ∀ fuel attempt lastErr, attempt + fuel = retries + 1 → 1 ≤ fuel →
      mrLoop outcomes retries fuel attempt lastErr
        = .ok (.errorDict (msgAt retries), allRetryTrace retries fuel attempt) := by
  intro fuel
  induction fuel with
  | zero => intro attempt lastErr hsum hf; omega
  | succ f ih =>
    intro attempt lastErr hsum hf
    obtain ⟨e, hstep, hh⟩ := retriableMsg?_eq_some (hall attempt)
    rw [mrLoop_raised_setLast outcomes hstep hh]
    by_cases hlt : attempt < retries
    · have hf1 : 1 ≤ f := by omega
      rw [if_pos hlt, ih (attempt + 1) (some (msgAt attempt)) (by omega) hf1]
      simp only [Except.map, allRetryTrace, hlt, if_true]
    · have hf0 : f = 0 := by omega
      have hatt : attempt = retries := by omega
      subst hf0
      subst hatt
      rw [if_neg hlt]
      simp only [mrLoop, Except.map, exhaustedMsg, allRetryTrace, hlt, if_false]

lemma count_dispatch_allRetryTrace (retries : Nat) :
    ∀ f a, (allRetryTrace retries f a).count Ev.dispatch = f := by
  intro f
  induction f with
  | zero => intro a; rfl
  | succ n ih =>
    intro a
    by_cases hlt : a < retries
    · simp only [allRetryTrace, hlt, if_true, List.count_cons, ih]
      simp
    · simp only [allRetryTrace, hlt, if_false, List.count_cons, ih]
      simp

lemma backoffsOf_allRetryTrace (retries : Nat) :
    ∀ f a, a + f = retries + 1 →
      backoffsOf (allRetryTrace retries f a)
        = (List.range (f - 1)).map (fun j => calculateRetryDelay (a + j)) := by
  intro f
  induction f with
  | zero => intro a hsum; rfl
  | succ n ih =>
    intro a hsum
    by_cases hlt : a < retries
    · have hn1 : 1 ≤ n := by omega
      simp only [allRetryTrace, hlt, if_true, backoffsOf, List.filterMap_cons]
      have := ih (a + 1) (by omega)
      simp only [backoffsOf] at this
      rw [this]
      have hrw : n + 1 - 1 = (n - 1) + 1 := by omega
      rw [hrw, List.range_succ_eq_map, List.map_cons, List.map_map]
      congr 1
      apply List.map_congr_left
      intro j _
      simp only [Function.comp]
      congr 1
      omega
    · have hn0 : n = 0 := by omega
      subst hn0
      simp only [allRetryTrace, hlt, if_false, backoffsOf, List.filterMap_cons]
      rfl

/-- A 404 response used for concrete instantiations. -/
def resp404 : Resp Unit :=
  { status := 404, retryAfter := none, ctype := .otherCt, jsonParse := .error "eof",
    text := "", statusMsg := "not found" }

/-- A 429 response with a Retry-After hint of `h` seconds (absent if `none`),
used for concrete instantiations. -/
def mk429 (h : Option Nat) : Resp Unit :=
  { status := 429, retryAfter := h.map .num, ctype := .otherCt, jsonParse := .error "eof",
    text := "", statusMsg := "too many requests" }

/-- Expected trace of a run whose every attempt is rate-limited with hint
`hint`: each loop iteration dispatches once and sleeps `hint` seconds. -/
def trace429 (hint : Nat) : Nat → List Ev
  | 0 => []
  | n + 1 => Ev.dispatch :: Ev.sleep429 hint :: trace429 hint n

lemma attemptStep_mk429 (h : Option Nat) :
    attemptStep (Outcome.resp (mk429 h)) = Ctl.cont429 (h.getD 60) := by
  cases h <;> rfl

lemma mrLoop_all429 (h : Option Nat) (retries : Nat) :
    ∀ fuel attempt lastErr,
      mrLoop (fun _ => Outcome.resp (mk429 h)) retries fuel attempt lastErr
        = .ok (.errorDict (exhaustedMsg lastErr), trace429 (h.getD 60) fuel) := by
  intro fuel
  induction fuel with
  | zero => intro attempt lastErr; rfl
  | succ n ih =>
    intro attempt lastErr
    rw [mrLoop_cont429 (fun _ => Outcome.resp (mk429 h)) (attemptStep_mk429 h),
      ih (attempt + 1) lastErr]
    rfl

end ApiClient

/-- C3: at the caller boundary `make_request` and `make_post_request` are
total: for every outcome stream (2xx with any content type and any JSON-parse
result, 4xx, 429 with any Retry-After header, 5xx, timeout, transport error,
unexpected exception) and every retry count, no exception escapes the handler
chain and the call returns a value — a parsed/wrapped payload or a structured
error dict. -/
theorem claim_C3_requests_total :
    (∀ (J : Type) (outcomes : Nat → ApiClient.Outcome J) (retries : Nat),
       ∃ r evs, ApiClient.makeRequest outcomes retries = .ok (r, evs)) ∧
    (∀ (J : Type) (o : ApiClient.PostOutcome J),
       ∃ r, ApiClient.makePostRequest o = .ok r) := by
  constructor
  · intro J outcomes retries
    obtain ⟨⟨r, evs⟩, hp⟩ := ApiClient.mrLoop_isOk outcomes retries (retries + 1) 0 none
    exact ⟨r, evs, hp⟩
  · intro J o
    unfold ApiClient.makePostRequest
    cases ApiClient.postAttempt o with
    | ret v => exact ⟨_, rfl⟩
    | raised e => exact ⟨_, rfl⟩

/-- C6: a non-429 4xx response returns a structured error carrying the status
code after exactly one dispatch (never a second attempt); when every attempt
fails retry-eligibly (5xx / timeout / transport), there are exactly
`retries + 1` dispatches and the backoff before the retry following attempt
`i` is `calculateRetryDelay i = min(base * 2^i, capMax)`; with base = 1.0 and
cap = 10.0 the delays for i = 0..4 are 1, 2, 4, 8, 10. -/
theorem claim_C6_outcome_classification :
    (∀ (J : Type) (outcomes : Nat → ApiClient.Outcome J) (retries : Nat)
       (r : ApiClient.Resp J),
       outcomes 0 = .resp r → 400 ≤ r.status → r.status < 500 → r.status ≠ 429 →
       ApiClient.makeRequest outcomes retries
         = .ok (.errorDict ("HTTP " ++ toString r.status ++ ": " ++ r.statusMsg),
                [ApiClient.Ev.dispatch])) ∧
    (∀ (J : Type) (outcomes : Nat → ApiClient.Outcome J) (retries : Nat)
       (msgAt : Nat → String),
       (∀ i, ApiClient.retriableMsg? (outcomes i) = some (msgAt i)) →
       ∃ evs, ApiClient.makeRequest outcomes retries
           = .ok (.errorDict (msgAt retries), evs) ∧
         evs.count ApiClient.Ev.dispatch = retries + 1 ∧
         ApiClient.backoffsOf evs
           = (List.range retries).map ApiClient.calculateRetryDelay) ∧
    ((List.range 5).map ApiClient.calculateRetryDelay = [1, 2, 4, 8, 10]) := by
  have hdelays : (List.range 5).map ApiClient.calculateRetryDelay = [1, 2, 4, 8, 10] := by
    have hr : List.range 5 = [0, 1, 2, 3, 4] := rfl
    rw [hr]
    simp only [List.map_cons, List.map_nil, ApiClient.calculateRetryDelay,
      ApiClient.RETRY_DELAY_BASE, ApiClient.RETRY_DELAY_MAX]
    norm_num [min_def]
  refine ⟨?_, ?_, hdelays⟩
  · intro J outcomes retries r hout h4 h5 h429
    have hstatus : (r.status == 429) = false := by simpa using h429
    have hstep : ApiClient.attemptStep (outcomes 0)
        = .raised ⟨.httpStatusC, some r.status, r.statusMsg⟩ := by
      rw [hout]
      simp only [ApiClient.attemptStep, hstatus]
      have : (400 ≤ r.status ∧ r.status < 600) := ⟨h4, by omega⟩
      simp [this]
    have hh : ApiClient.handle (J := J) ⟨.httpStatusC, some r.status, r.statusMsg⟩
        = some (.ret (.errorDict ("HTTP " ++ toString r.status ++ ": " ++ r.statusMsg))) := by
      simp only [ApiClient.handle, ApiClient.isSubclass]
      have : (400 ≤ r.status ∧ r.status < 500 ∧ r.status ≠ 429) := ⟨h4, h5, h429⟩
      simp [this]
    exact ApiClient.mrLoop_raised_ret outcomes hstep hh
  · intro J outcomes retries msgAt hall
    refine ⟨ApiClient.allRetryTrace retries (retries + 1) 0, ?_, ?_, ?_⟩
    · exact ApiClient.mrLoop_allRetriable outcomes retries msgAt hall (retries + 1) 0 none
        (by omega) (by omega)
    · exact ApiClient.count_dispatch_allRetryTrace retries (retries + 1) 0
    · have := ApiClient.backoffsOf_allRetryTrace retries (retries + 1) 0 (by omega)
      rw [this]
      simp only [Nat.add_sub_cancel]
      apply List.map_congr_left
      intro j _
      simp

/-- Concrete instantiation of C6: a 404 on a fresh call with 3 retries returns
the structured error in a single dispatch, and an all-timeout run with
3 retries dispatches 4 times with backoffs 1, 2, 4. -/
theorem claim_C6_outcome_classification_witness :
    (ApiClient.makeRequest (J := Unit) (fun _ => .resp ApiClient.resp404) 3
       = .ok (.errorDict ("HTTP " ++ toString (404 : Nat) ++ ": " ++ "not found"),
              [ApiClient.Ev.dispatch])) ∧
    (∃ evs, ApiClient.makeRequest (J := Unit) (fun _ => .timeoutExc "timed out") 3
        = .ok (.errorDict "timed out", evs) ∧
      evs.count ApiClient.Ev.dispatch = 3 + 1 ∧
      ApiClient.backoffsOf evs = (List.range 3).map ApiClient.calculateRetryDelay) :=
  ⟨claim_C6_outcome_classification.1 Unit _ 3 ApiClient.resp404 rfl (by decide) (by decide)
     (by decide),
   claim_C6_outcome_classification.2.1 Unit _ 3 (fun _ => "timed out") (fun _ => rfl)⟩

/-- C1 counterexample: with a retry budget of 0 (one loop iteration), a 429
response leads to the Retry-After sleep (default 60 s) but to NO further
attempt: the call returns the exhausted-retries error after a single
dispatch.  The `continue` advances the loop variable, so the 429 consumed the
sole iteration of the budget — contradicting the claim that a 429-triggered
re-attempt leaves the remaining attempt budget unchanged. -/
theorem claim_C1_429_budget_counterexample :
    ApiClient.makeRequest (J := Unit) (fun _ => .resp (ApiClient.mk429 none)) 0
      = .ok (.errorDict "Unknown error after retries",
             [ApiClient.Ev.dispatch, ApiClient.Ev.sleep429 60]) := by
  decide

/-- C1 amended: a 429 response causes a sleep of the Retry-After hint
(60 seconds when the header is absent) followed by another attempt only while
iterations of the shared `retries + 1` budget remain; the 429 iteration
consumes one unit of that budget, so an endless stream of 429s produces
exactly `retries + 1` dispatch/sleep pairs and then the exhausted-retries
error. -/
theorem claim_C1_429_budget_amended (retries : Nat) (h : Option Nat) :
    ApiClient.makeRequest (J := Unit) (fun _ => .resp (ApiClient.mk429 h)) retries
      = .ok (.errorDict "Unknown error after retries",
             ApiClient.trace429 (h.getD 60) (retries + 1)) :=
  ApiClient.mrLoop_all429 h retries (retries + 1) 0 none

/-! ## DistributedCache (`app/redis_cache.py`)

`RedisCache`: a remote cache client whose operations take the remote call's
outcome (`ok` or a raised-and-caught exception) as an oracle argument, and an
in-process fallback dict of `(fullKey, value, expiry)` entries.  The key hash
for over-long keys (`_hash_key`, sha256 above 200 chars) is abstracted as a
function parameter `H`. -/

/-- Python dict assignment `d[key] = (value, stamp)` over an insertion-ordered
dict modelled as an association list: replace in place when the key is
present, else append. -/
def pyDictInsert {V : Type} (l : List (String × V × Int)) (k : String) (v : V)
    (exp : Int) : List (String × V × Int) :=
  if l.any (fun e => e.1 == k) then
    l.map (fun e => if e.1 == k then (k, v, exp) else e)
  else
    l ++ [(k, v, exp)]

lemma find?_pyDictInsert {V : Type} (l : List (String × V × Int)) (k : String) (v : V)
    (exp : Int) :
    (pyDictInsert l k v exp).find? (fun e => e.1 == k) = some (k, v, exp) := by
  by_cases ha : l.any (fun e => e.1 == k)
  · have hmap : pyDictInsert l k v exp
        = l.map (fun e => if e.1 == k then (k, v, exp) else e) := by
      unfold pyDictInsert
      rw [if_pos ha]
    rw [hmap]
    clear hmap
    induction l with
    | nil => simp at ha
    | cons e es ih =>
      cases he : (e.1 == k) with
      | true =>
        rw [List.map_cons, if_pos he]
        exact List.find?_cons_of_pos _ (by simp)
      | false =>
        have ha2 : es.any (fun e => e.1 == k) := by
          simp only [List.any_cons, he, Bool.false_or] at ha
          exact ha
        rw [List.map_cons, if_neg (by simp [he])]
        rw [List.find?_cons_of_neg _ (by simp [he])]
        exact ih ha2
  · have happ : pyDictInsert l k v exp = l ++ [(k, v, exp)] := by
      unfold pyDictInsert
      rw [if_neg ha]
    rw [happ, List.find?_append]
    have hnone : l.find? (fun e => e.1 == k) = none := by
      apply List.find?_eq_none.mpr
      intro x hx hxk
      exact ha (List.any_eq_true.mpr ⟨x, hx, hxk⟩)
    rw [hnone]
    simp [List.find?]

namespace RedisCache

/-- Outcome of a remote (Redis) call: a result, or an exception that the
surrounding `try` block catches. -/
inductive RemoteRes (α : Type) where
  | ok (a : α)
  | exn (msg : String)

/-- State of a `RedisCache` instance: key namespace, default TTL, connection
flag (`self._connected and self._client`), and the in-process
`_fallback_cache` mapping full keys to `(value, expires)`. -/
structure RC (V : Type) where
  pfx : String
  defaultTtl : Int
  connected : Bool
  fallback : List (String × V × Int)
deriving Repr

/-- `_hash_key`: keys longer than 200 chars are replaced by their hash. -/
def hashGuard (H : String → String) (key : String) : String :=
  if key.length > 200 then H key else key

/-- `_make_key` composed with `_hash_key`: the full key used in the store. -/
def fullKey {V : Type} (H : String → String) (st : RC V) (key : String) : String :=
  st.pfx ++ hashGuard H key

/-- `_fallback_get`: return the value while `time.time() < expires`, lazily
deleting a stale entry. -/
def fallbackGet {V : Type} (now : Int) (st : RC V) (fk : String) : Option V × RC V :=
  match st.fallback.find? (fun e => e.1 == fk) with
  | some (_, v, exp) =>
    if now < exp then (some v, st)
    else (none, { st with fallback := st.fallback.filter (fun e => !(e.1 == fk)) })
  | none => (none, st)

/-- `RedisCache.get`: remote when connected, falling back to the in-process
dict when the remote call raises; straight to the fallback when
disconnected. -/
def rcGet {V : Type} (H : String → String) (now : Int) (st : RC V) (key : String)
    (remote : RemoteRes (Option V)) : Option V × RC V :=
  let fk := fullKey H st key
  if st.connected then
    match remote with
    | .ok r => (r, st)
    | .exn _ => fallbackGet now st fk
  else
    fallbackGet now st fk

/-- `_fallback_set`. -/
def fallbackSet {V : Type} (st : RC V) (fk : String) (v : V) (ttl now : Int) :
    Bool × RC V :=
  (true, { st with fallback := pyDictInsert st.fallback fk v (now + ttl) })

/-- `RedisCache.set`: serialization failure returns `False` up front
(`serOk` models whether `json.dumps` succeeded); remote `setex` when
connected, with fallback on a raised remote error; `ttl or default_ttl`
treats 0 as falsy. -/
def rcSet {V : Type} (H : String → String) (now : Int) (st : RC V) (key : String) (v : V)
    (ttl : Option Int) (serOk : Bool) (remote : RemoteRes Unit) : Bool × RC V :=
  let fk := fullKey H st key
  let t := match ttl with
           | none => st.defaultTtl
           | some x => if x = 0 then st.defaultTtl else x
  if serOk = false then (false, st)
  else if st.connected then
    match remote with
    | .ok _ => (true, st)
    | .exn _ => fallbackSet st fk v t now
  else
    fallbackSet st fk v t now

/-- `RedisCache.delete`: when connected, a raised remote error is caught and
the call returns `False` — the fallback dict is NOT touched; only when
disconnected is the key popped from the fallback dict. -/
def rcDelete {V : Type} (H : String → String) (st : RC V) (key : String)
    (remote : RemoteRes Unit) : Bool × RC V :=
  let fk := fullKey H st key
  if st.connected then
    match remote with
    | .ok _ => (true, st)
    | .exn _ => (false, st)
  else
    (true, { st with fallback := st.fallback.filter (fun e => !(e.1 == fk)) })

/-- `RedisCache.clear_prefix`: when connected, a raised remote error is caught
and the call returns 0 — the fallback dict is NOT touched; only when
disconnected are the matching fallback keys removed.  Note `clear_prefix`
builds its full key without `_hash_key`. -/
def rcClearPref {V : Type} (st : RC V) (pref : String) (remote : RemoteRes Nat) :
    Nat × RC V :=
  let fp := st.pfx ++ pref
  if st.connected then
    match remote with
    | .ok n => (n, st)
    | .exn _ => (0, st)
  else
    ((st.fallback.filter (fun e => e.1.startsWith fp)).length,
     { st with fallback := st.fallback.filter (fun e => !(e.1.startsWith fp)) })

/-- `RedisCache.exists`: when connected, a raised remote error is caught and
answered by bare fallback membership (no expiry check); when disconnected,
membership with the expiry check. -/
def rcExists {V : Type} (H : String → String) (now : Int) (st : RC V) (key : String)
    (remote : RemoteRes Bool) : Bool :=
  let fk := fullKey H st key
  if st.connected then
    match remote with
    | .ok b => b
    | .exn _ => st.fallback.any (fun e => e.1 == fk)
  else
    match st.fallback.find? (fun e => e.1 == fk) with
    | some (_, _, exp) => decide (now < exp)
    | none => false

end RedisCache

/-- Demonstration state for C2: connected, fallback already holding the full
key for "k". -/
def c2Demo : RedisCache.RC Nat :=
  { pfx := "eodhd:", defaultTtl := 300, connected := true,
    fallback := [("eodhd:k", 5, 100)] }

/-- Demonstration state for C2 with an empty fallback map. -/
def c2DemoEmpty : RedisCache.RC Nat :=
  { pfx := "eodhd:", defaultTtl := 300, connected := true, fallback := [] }

/-- C2 counterexample: with the remote store connected and the fallback map
holding the key, a `delete` whose remote call raises is caught but returns
`False` and does NOT remove the key from the fallback store — a subsequent
`get` whose remote call also raises still returns the value.  Likewise a
failing `clear_prefix` returns 0 and leaves the matching fallback key in
place.  This contradicts the claim that a failing delete/clearPrefix still
removes the key(s) from the fallback store. -/
theorem claim_C2_fallback_counterexample :
    (RedisCache.rcDelete id c2Demo "k" (.exn "boom")).1 = false ∧
    (RedisCache.rcDelete id c2Demo "k" (.exn "boom")).2.fallback
      = [("eodhd:k", 5, 100)] ∧
    (RedisCache.rcGet id 0 (RedisCache.rcDelete id c2Demo "k" (.exn "boom")).2 "k"
       (.exn "boom")).1 = some 5 ∧
    (RedisCache.rcClearPref c2Demo "k" (.exn "boom")).1 = 0 ∧
    (RedisCache.rcClearPref c2Demo "k" (.exn "boom")).2.fallback
      = [("eodhd:k", 5, 100)] := by
  decide

/-- C2 amended: every remote-store error is caught and never propagated, and
`get`, `set` and `exists` transparently fall back to the in-process map under
the same full key (a `set` whose remote call fails is still readable through a
later failing `get`); but `delete` merely returns `False` and `clear_prefix`
merely returns 0 on a remote error, leaving the fallback store untouched. -/
theorem claim_C2_fallback_amended :
    (∀ (V : Type) (H : String → String) (now : Int) (st : RedisCache.RC V)
       (key m : String), st.connected = true →
       RedisCache.rcGet H now st key (.exn m)
         = RedisCache.fallbackGet now st (RedisCache.fullKey H st key)) ∧
    (∀ (V : Type) (H : String → String) (now now2 : Int) (st : RedisCache.RC V)
       (key : String) (v : V) (t : Int) (m m2 : String),
       st.connected = true → t ≠ 0 → now2 < now + t →
       (RedisCache.rcSet H now st key v (some t) true (.exn m)).1 = true ∧
       (RedisCache.rcGet H now2 (RedisCache.rcSet H now st key v (some t) true
           (.exn m)).2 key (.exn m2)).1 = some v) ∧
    (∀ (V : Type) (H : String → String) (st : RedisCache.RC V) (key m : String),
       st.connected = true →
       RedisCache.rcDelete H st key (.exn m) = (false, st)) ∧
    (∀ (V : Type) (st : RedisCache.RC V) (pref m : String), st.connected = true →
       RedisCache.rcClearPref st pref (.exn m) = (0, st)) ∧
    (∀ (V : Type) (H : String → String) (now : Int) (st : RedisCache.RC V)
       (key m : String), st.connected = true →
       RedisCache.rcExists H now st key (.exn m)
         = st.fallback.any (fun e => e.1 == RedisCache.fullKey H st key)) := by
  refine ⟨?_, ?_, ?_, ?_, ?_⟩
  · intro V H now st key m hconn
    simp [RedisCache.rcGet, hconn]
  · intro V H now now2 st key v t m m2 hconn ht hnow
    have hres : (RedisCache.rcSet H now st key v (some t) true (.exn m)).1 = true := by
      simp [RedisCache.rcSet, hconn, ht, RedisCache.fallbackSet]
    have hconn2 : (RedisCache.rcSet H now st key v (some t) true (.exn m)).2.connected
        = true := by
      simp [RedisCache.rcSet, hconn, ht, RedisCache.fallbackSet]
    have hpfx : (RedisCache.rcSet H now st key v (some t) true (.exn m)).2.pfx
        = st.pfx := by
      simp [RedisCache.rcSet, hconn, ht, RedisCache.fallbackSet]
    have hfb : (RedisCache.rcSet H now st key v (some t) true (.exn m)).2.fallback
        = pyDictInsert st.fallback (RedisCache.fullKey H st key) v (now + t) := by
      simp [RedisCache.rcSet, hconn, ht, RedisCache.fallbackSet, RedisCache.fullKey]
    refine ⟨hres, ?_⟩
    simp only [RedisCache.rcGet, hconn2, if_true, RedisCache.fallbackGet,
      RedisCache.fullKey, hpfx, hfb]
    rw [find?_pyDictInsert]
    simp [hnow]
  · intro V H st key m hconn
    simp [RedisCache.rcDelete, hconn]
  · intro V st pref m hconn
    simp [RedisCache.rcClearPref, hconn]
  · intro V H now st key m hconn
    simp [RedisCache.rcExists, hconn, RedisCache.fullKey]

/-- Concrete instantiation of C2 amended: on a connected cache, a failing
`set` of `("k", 5)` is readable by a failing `get`, and a failing `delete`
returns `(False, unchanged state)`. -/
theorem claim_C2_fallback_amended_witness :
    ((RedisCache.rcSet id 0 c2DemoEmpty "k" 5 (some 10) true (.exn "boom")).1 = true ∧
     (RedisCache.rcGet id 1 (RedisCache.rcSet id 0 c2DemoEmpty "k" 5 (some 10) true
        (.exn "boom")).2 "k" (.exn "boom")).1 = some 5) ∧
    RedisCache.rcDelete id c2DemoEmpty "k" (.exn "boom") = (false, c2DemoEmpty) :=
  ⟨claim_C2_fallback_amended.2.1 Nat id 0 1 c2DemoEmpty "k" 5 10 "boom" "boom" rfl
     (by decide) (by decide),
   claim_C2_fallback_amended.2.2.1 Nat id c2DemoEmpty "k" "boom" rfl⟩

/-! ## TokenValidator (`app/oauth.py`)

`TokenInfo` and `OAuthValidator.validate_token` with its hash-keyed result
cache.  The one-way token hash (`sha256(token)[:32]`) is abstracted as a
function parameter `h`; the introspection endpoint (`_introspect_token`,
including its fail-closed mapping of transport errors to `active=False`) is an
oracle `introspect : String → TokenInfo`. -/

namespace OAuth

/-- `TokenInfo` dataclass from `app/oauth.py`. -/
structure TokenInfo where
  active : Bool
  subject : Option String
  clientId : Option String
  scopes : List String
  expiresAt : Option Int
  issuedAt : Option Int
deriving DecidableEq, Repr

/-- `TokenInfo.is_expired`: false when no expiry, else `time.time() > exp`. -/
def TokenInfo.isExpired (ti : TokenInfo) (now : Int) : Bool :=
  match ti.expiresAt with
  | none => false
  | some e => decide (now > e)

/-- State of an `OAuthValidator`: introspection URL (empty string when not
configured, matching Python truthiness), result-cache TTL (default 300), and
the result cache `_cache : dict[hash, (TokenInfo, cached_at)]`. -/
structure OVState where
  introspectionUrl : String
  cacheTtl : Int
  cache : List (String × TokenInfo × Int)
deriving Repr

/-- `_get_cached`: fresh hit returns the entry; a stale hit is deleted and
reported as a miss. -/
def getCached (h : String → String) (now : Int) (st : OVState) (token : String) :
    Option TokenInfo × OVState :=
  match st.cache.find? (fun e => e.1 == h token) with
  | some (_, info, cachedAt) =>
    if now - cachedAt < st.cacheTtl then (some info, st)
    else (none, { st with cache := st.cache.filter (fun e => !(e.1 == h token)) })
  | none => (none, st)

/-- `_set_cached`: store under the token hash with the current time. -/
def setCached (h : String → String) (now : Int) (st : OVState) (token : String)
    (info : TokenInfo) : OVState :=
  { st with cache := pyDictInsert st.cache (h token) info now }

/-- The development-fallback `TokenInfo` returned when no introspection
endpoint is configured. -/
def devInfo : TokenInfo :=
  { active := true, subject := none, clientId := none, scopes := ["full-access"],
    expiresAt := none, issuedAt := none }

/-- `OAuthValidator.validate_token`: cache lookup; introspection (with the
result cached) when an introspection URL is configured; otherwise the
development fallback, which is returned WITHOUT being cached. -/
def validateToken (h : String → String) (introspect : String → TokenInfo) (now : Int)
    (st : OVState) (token : String) : TokenInfo × OVState :=
  let g := getCached h now st token
  match g.1 with
  | some info => (info, g.2)
  | none =>
    if st.introspectionUrl ≠ "" then
      (introspect token, setCached h now g.2 token (introspect token))
    else
      (devInfo, g.2)

end OAuth

/-- A fresh validator state with no introspection endpoint configured
(development fallback mode) and the default 300 s cache TTL. -/
def c5DevState : OAuth.OVState :=
  { introspectionUrl := "", cacheTtl := 300, cache := [] }

/-- C5 counterexample: with no introspection endpoint configured (the
development fallback), `validate_token` returns the full-access `TokenInfo`
but stores NOTHING in the result cache — the cache stays empty — contradicting
the claim that the resulting `TokenInfo` is cached regardless of the
validation outcome. -/
theorem claim_C5_token_cache_counterexample :
    (OAuth.validateToken id (fun _ => OAuth.devInfo) 0 c5DevState "tok").1
      = OAuth.devInfo ∧
    (OAuth.validateToken id (fun _ => OAuth.devInfo) 0 c5DevState "tok").2.cache
      = [] := by
  decide

/-- C5 amended: when an introspection endpoint is configured, the
introspection result — active or inactive — is stored in the result cache
keyed by the one-way hash of the raw token and stamped with the current time;
a repeat validation within the cache-TTL window returns the cached `TokenInfo`
without re-validating (the result does not depend on the introspection oracle
and the state is unchanged); but when no introspection endpoint is configured
the development-fallback `TokenInfo` is returned WITHOUT being cached. -/
theorem claim_C5_token_cache_amended :
    (∀ (h : String → String) (introspect : String → OAuth.TokenInfo) (now : Int)
       (st : OAuth.OVState) (token : String),
       st.introspectionUrl ≠ "" → (OAuth.getCached h now st token).1 = none →
       (OAuth.validateToken h introspect now st token).1 = introspect token ∧
       (OAuth.validateToken h introspect now st token).2.cache.find?
           (fun e => e.1 == h token)
         = some (h token, introspect token, now)) ∧
    (∀ (h : String → String) (introspect : String → OAuth.TokenInfo) (now2 : Int)
       (st : OAuth.OVState) (token : String) (info : OAuth.TokenInfo) (cachedAt : Int),
       st.cache.find? (fun e => e.1 == h token) = some (h token, info, cachedAt) →
       now2 - cachedAt < st.cacheTtl →
       OAuth.validateToken h introspect now2 st token = (info, st)) ∧
    (∀ (h : String → String) (introspect : String → OAuth.TokenInfo) (now : Int)
       (st : OAuth.OVState) (token : String),
       st.introspectionUrl = "" → (OAuth.getCached h now st token).1 = none →
       (OAuth.validateToken h introspect now st token).1 = OAuth.devInfo ∧
       (OAuth.validateToken h introspect now st token).2
         = (OAuth.getCached h now st token).2) := by
  refine ⟨?_, ?_, ?_⟩
  · intro h introspect now st token hurl hmiss
    have hurl2 : (OAuth.getCached h now st token).2.introspectionUrl
        = st.introspectionUrl := by
      unfold OAuth.getCached
      cases hf : st.cache.find? (fun e => e.1 == h token) with
      | none => rfl
      | some p =>
        obtain ⟨k, info, cachedAt⟩ := p
        by_cases hfresh : now - cachedAt < st.cacheTtl
        · simp [hfresh]
        · simp [hfresh]
    constructor
    · simp only [OAuth.validateToken]
      rw [hmiss]
      rw [if_pos hurl]
    · simp only [OAuth.validateToken]
      rw [hmiss]
      rw [if_pos hurl]
      simp only [OAuth.setCached]
      exact find?_pyDictInsert _ _ _ _
  · intro h introspect now2 st token info cachedAt hf hfresh
    have hg : OAuth.getCached h now2 st token = (some info, st) := by
      unfold OAuth.getCached
      rw [hf]
      exact if_pos hfresh
    simp only [OAuth.validateToken, hg]
  · intro h introspect now st token hurl hmiss
    constructor
    · simp only [OAuth.validateToken]
      rw [hmiss]
      rw [if_neg (by simp [hurl])]
    · simp only [OAuth.validateToken]
      rw [hmiss]
      rw [if_neg (by simp [hurl])]

/-- A validator state with an introspection endpoint configured. -/
def c5IntroState : OAuth.OVState :=
  { introspectionUrl := "https://issuer/introspect", cacheTtl := 300, cache := [] }

/-- Concrete instantiation of C5 amended: an introspection result (inactive,
hence "regardless of outcome") is cached under the token hash, and validating
again 10 s later returns it from the cache with the state unchanged. -/
theorem claim_C5_token_cache_amended_witness :
    ((OAuth.validateToken id (fun _ => OAuth.TokenInfo.mk false none none [] none none)
        0 c5IntroState "tok").1
      = OAuth.TokenInfo.mk false none none [] none none ∧
     (OAuth.validateToken id (fun _ => OAuth.TokenInfo.mk false none none [] none none)
        0 c5IntroState "tok").2.cache.find? (fun e => e.1 == id "tok")
      = some (id "tok", OAuth.TokenInfo.mk false none none [] none none, 0)) ∧
    OAuth.validateToken id (fun _ => OAuth.devInfo) 10
        { introspectionUrl := "u", cacheTtl := 300,
          cache := [("tok", OAuth.TokenInfo.mk false none none [] none none, 0)] } "tok"
      = (OAuth.TokenInfo.mk false none none [] none none,
         { introspectionUrl := "u", cacheTtl := 300,
           cache := [("tok", OAuth.TokenInfo.mk false none none [] none none, 0)] }) :=
  ⟨claim_C5_token_cache_amended.1 id (fun _ => OAuth.TokenInfo.mk false none none [] none none)
     0 c5IntroState "tok" (by decide) (by decide),
   claim_C5_token_cache_amended.2.1 id (fun _ => OAuth.devInfo) 10 _ "tok"
     (OAuth.TokenInfo.mk false none none [] none none) 0 (by decide) (by decide)⟩

/-! ## AuthGate (`app/auth.py`)

`AuthMiddleware.authenticate`.  The token validator
(`oauth_validator.validate_token`) and the legacy-key network validation
(`validate_legacy_api_key`) are oracles; `EODHD_API_KEY` (from the
configuration module) is a field of the config record.  Bearer extraction
models `re.match(r"Bearer\s+(.+)", header, IGNORECASE)` followed by
`.group(1).strip()` over ASCII text. -/

namespace Auth

/-- `AuthResult` dataclass (scopes default to the empty list). -/
structure AuthResult where
  authenticated : Bool
  userId : Option String
  method : Option String
  scopes : List String
  error : Option String
  errorDescription : Option String
deriving DecidableEq, Repr

/-- Middleware configuration: the two `allow_*` flags and the environment
API key ("" models an unset `EODHD_API_KEY`, matching Python truthiness). -/
structure AuthCfg where
  allowLegacyApiKey : Bool
  allowEnvApiKey : Bool
  envApiKey : String
deriving Repr

/-- Python `\s` over ASCII text. -/
def pySpace (c : Char) : Bool :=
  c == ' ' || c == '\t' || c == '\n' || c == '\r' || c == '\x0b' || c == '\x0c'

/-- Python `str.strip()`. -/
def pyStrip (cs : List Char) : List Char :=
  ((cs.dropWhile pySpace).reverse.dropWhile pySpace).reverse

/-- Whether splitting the post-"Bearer" text after `k` characters is a valid
match split for `\s+(.+)`: at least one whitespace char consumed, and the
next character exists and is not a newline (`.` does not match newline). -/
def validK (rest : List Char) (k : Nat) : Bool :=
  decide (1 ≤ k) && (rest.take k).all pySpace &&
    (match rest.drop k with
     | [] => false
     | c :: _ => c != '\n')

/-- The greedy `\s+` split: the largest valid split point. -/
def bestK (rest : List Char) : Option Nat :=
  ((List.range (rest.length + 1)).filter (validK rest)).max?

/-- `extract_bearer_token`: case-insensitive "Bearer" prefix, `\s+`, then the
greedy first-line capture, stripped. -/
def extractBearerToken (h : Option String) : Option String :=
  match h with
  | none => none
  | some s =>
    if s == "" then none
    else
      let cs := s.toList
      if (cs.take 6).map Char.toLower == "bearer".toList then
        let rest := cs.drop 6
        match bestK rest with
        | some k =>
          some (String.mk (pyStrip ((rest.drop k).takeWhile (fun c => c != '\n'))))
        | none => none
      else none

/-- Python truthiness of an optional string parameter. -/
def truthyOpt (o : Option String) : Bool :=
  match o with
  | some s => s != ""
  | none => false

/-- Environment-key success result (scopes `["full-access"]`). -/
def envResult : AuthResult :=
  ⟨true, none, some "env", ["full-access"], none, none⟩

/-- Failure result for stdio transport without an environment key. -/
def missingTokenStdio : AuthResult :=
  ⟨false, none, none, [], some "missing_token",
   some "EODHD_API_KEY environment variable not set"⟩

/-- Failure result for an inactive or expired bearer token. -/
def invalidTokenResult : AuthResult :=
  ⟨false, none, none, [], some "invalid_token", some "Token is invalid or expired"⟩

/-- Failure result when no credentials are found. -/
def missingTokenResult : AuthResult :=
  ⟨false, none, none, [], some "missing_token",
   some "No valid authentication credentials provided"⟩

/-- Success result for a validated bearer token. -/
def oauthSuccess (info : OAuth.TokenInfo) : AuthResult :=
  ⟨true, info.subject, some "oauth", info.scopes, none, none⟩

/-- The part of `authenticate` after the bearer branch: legacy `api_token`
parameter, then environment fallback, then `missing_token`. -/
def authFallthrough (cfg : AuthCfg) (legacy : String → AuthResult)
    (apiTokenParam : Option String) : AuthResult :=
  if cfg.allowLegacyApiKey && truthyOpt apiTokenParam then
    legacy (apiTokenParam.getD "")
  else if cfg.allowEnvApiKey && cfg.envApiKey != "" then
    envResult
  else
    missingTokenResult

/-- `AuthMiddleware.authenticate`: stdio short-circuit; bearer token (when
present and nonempty) decided solely by the validator's `active`/expiry;
otherwise the legacy/env fallthrough. -/
def authenticate (cfg : AuthCfg) (validate : String → OAuth.TokenInfo)
    (legacy : String → AuthResult) (now : Int)
    (header apiTokenParam : Option String) (transport : String) : AuthResult :=
  if transport == "stdio" then
    if cfg.allowEnvApiKey && cfg.envApiKey != "" then envResult
    else missingTokenStdio
  else
    match extractBearerToken header with
    | some tok =>
      if tok != "" then
        if (validate tok).active && !((validate tok).isExpired now) then
          oauthSuccess (validate tok)
        else
          invalidTokenResult
      else
        authFallthrough cfg legacy apiTokenParam
    | none => authFallthrough cfg legacy apiTokenParam

lemma authenticate_bearer (cfg : AuthCfg) (validate : String → OAuth.TokenInfo)
    (legacy : String → AuthResult) (now : Int) (header param : Option String)
    (transport : String) (tok : String)
    (ht : transport ≠ "stdio") (he : extractBearerToken header = some tok)
    (hne : tok ≠ "") :
    authenticate cfg validate legacy now header param transport
      = if (validate tok).active && !((validate tok).isExpired now) then
          oauthSuccess (validate tok)
        else
          invalidTokenResult := by
  unfold authenticate
  rw [if_neg (by simp [ht]), he]
  have hne2 : (tok != "") = true := by simp [hne]
  simp only [hne2, if_true]

end Auth

/-- C4: through the bearer path of `authenticate` (non-stdio transport, a
bearer token present and nonempty in the Authorization header), a validator
result with `active = False`, or with an `expires_at` in the past, yields the
unauthenticated `invalid_token` result — never an authenticated one. -/
theorem claim_C4_inactive_or_expired_rejected
    (cfg : Auth.AuthCfg) (validate : String → OAuth.TokenInfo)
    (legacy : String → Auth.AuthResult) (now : Int)
    (header param : Option String) (transport : String) (tok : String)
    (ht : transport ≠ "stdio")
    (he : Auth.extractBearerToken header = some tok) (hne : tok ≠ "")
    (hbad : (validate tok).active = false ∨
      ∃ e, (validate tok).expiresAt = some e ∧ e < now) :
    Auth.authenticate cfg validate legacy now header param transport
      = Auth.invalidTokenResult := by
  rw [Auth.authenticate_bearer cfg validate legacy now header param transport tok ht he hne]
  rw [if_neg]
  intro hcond
  rw [Bool.and_eq_true] at hcond
  cases hbad with
  | inl hinactive => rw [hinactive] at hcond; exact Bool.false_ne_true hcond.1
  | inr hexp =>
    obtain ⟨e, hsome, hlt⟩ := hexp
    have : (validate tok).isExpired now = true := by
      unfold OAuth.TokenInfo.isExpired
      rw [hsome]
      simp
      omega
    rw [this] at hcond
    simp at hcond

/-- Concrete instantiation of C4: an inactive validator result for the token
extracted from "Bearer abc" is rejected with `invalid_token`. -/
theorem claim_C4_inactive_or_expired_rejected_witness :
    Auth.authenticate ⟨true, true, "envkey"⟩
        (fun _ => OAuth.TokenInfo.mk false none none [] none none)
        (fun _ => Auth.envResult) 0 (some "Bearer abc") (some "legacy") "http"
      = Auth.invalidTokenResult :=
  claim_C4_inactive_or_expired_rejected ⟨true, true, "envkey"⟩
    (fun _ => OAuth.TokenInfo.mk false none none [] none none)
    (fun _ => Auth.envResult) 0 (some "Bearer abc") (some "legacy") "http" "abc"
    (by decide) (by decide) (by decide) (Or.inl rfl)

/-- C9: over a non-stdio transport with a nonempty bearer token present in
the Authorization header, the bearer path decides the outcome: the result is
the same for any legacy oracle and any `api_token` parameter (the legacy key
is never consulted), it is the oauth-method success when the validator
reports active-and-unexpired, and the `invalid_token` failure otherwise —
never a legacy-key success. -/
theorem claim_C9_bearer_path_wins
    (cfg : Auth.AuthCfg) (validate : String → OAuth.TokenInfo)
    (legacy₁ legacy₂ : String → Auth.AuthResult) (now : Int)
    (header p₁ p₂ : Option String) (transport : String) (tok : String)
    (ht : transport ≠ "stdio")
    (he : Auth.extractBearerToken header = some tok) (hne : tok ≠ "") :
    (Auth.authenticate cfg validate legacy₁ now header p₁ transport
       = Auth.authenticate cfg validate legacy₂ now header p₂ transport) ∧
    ((validate tok).active = true ∧ (validate tok).isExpired now = false →
       Auth.authenticate cfg validate legacy₁ now header p₁ transport
         = Auth.oauthSuccess (validate tok)) ∧
    (¬ ((validate tok).active = true ∧ (validate tok).isExpired now = false) →
       Auth.authenticate cfg validate legacy₁ now header p₁ transport
         = Auth.invalidTokenResult) := by
  have h1 := Auth.authenticate_bearer cfg validate legacy₁ now header p₁ transport tok
    ht he hne
  have h2 := Auth.authenticate_bearer cfg validate legacy₂ now header p₂ transport tok
    ht he hne
  refine ⟨by rw [h1, h2], ?_, ?_⟩
  · intro hok
    rw [h1, if_pos]
    rw [Bool.and_eq_true, hok.1, hok.2]
    exact ⟨rfl, rfl⟩
  · intro hbad
    rw [h1, if_neg]
    intro hcond
    rw [Bool.and_eq_true] at hcond
    exact hbad ⟨hcond.1, by simpa using hcond.2⟩

/-- Concrete instantiation of C9: with both a valid bearer token and a legacy
parameter present, two different legacy oracles give the same result, and
that result carries method "oauth". -/
theorem claim_C9_bearer_path_wins_witness :
    (Auth.authenticate ⟨true, true, "envkey"⟩
         (fun _ => OAuth.TokenInfo.mk true (some "u1") none ["read:eod"] none none)
         (fun _ => Auth.envResult) 0 (some "Bearer abc") (some "legacy1") "http"
       = Auth.authenticate ⟨true, true, "envkey"⟩
         (fun _ => OAuth.TokenInfo.mk true (some "u1") none ["read:eod"] none none)
         (fun _ => Auth.missingTokenResult) 0 (some "Bearer abc") (some "legacy2") "http") ∧
    Auth.authenticate ⟨true, true, "envkey"⟩
        (fun _ => OAuth.TokenInfo.mk true (some "u1") none ["read:eod"] none none)
        (fun _ => Auth.envResult) 0 (some "Bearer abc") (some "legacy1") "http"
      = Auth.oauthSuccess (OAuth.TokenInfo.mk true (some "u1") none ["read:eod"] none none) :=
  ⟨(claim_C9_bearer_path_wins ⟨true, true, "envkey"⟩
      (fun _ => OAuth.TokenInfo.mk true (some "u1") none ["read:eod"] none none)
      (fun _ => Auth.envResult) (fun _ => Auth.missingTokenResult) 0
      (some "Bearer abc") (some "legacy1") (some "legacy2") "http" "abc"
      (by decide) (by decide) (by decide)).1,
   (claim_C9_bearer_path_wins ⟨true, true, "envkey"⟩
      (fun _ => OAuth.TokenInfo.mk true (some "u1") none ["read:eod"] none none)
      (fun _ => Auth.envResult) (fun _ => Auth.missingTokenResult) 0
      (some "Bearer abc") (some "legacy1") (some "legacy2") "http" "abc"
      (by decide) (by decide) (by decide)).2.1 ⟨rfl, rfl⟩⟩

/-! ## BatchOrchestrator (`app/batch.py`)

`BatchProcessor.process`.  `asyncio.gather(..., return_exceptions=True)`
yields, in submission order, either the raised exception or the per-task dict
`{"identifier": ..., "data": make_request(url)}`; the data value is modelled
at the granularity the classification inspects: Python truthiness, dict-ness,
and the value of the "error" key. -/

namespace Batch

/-- A `make_request` result as `process` inspects it: `None`, a list with its
truthiness, or a dict with its optional "error" value and whether it has
other keys (for truthiness). -/
inductive BData where
  | pynone
  | plist (truthy : Bool)
  | pdict (errVal : Option String) (hasOtherKeys : Bool)
deriving DecidableEq, Repr

/-- Python truthiness of the data value. -/
def truthy : BData → Bool
  | .pynone => false
  | .plist b => b
  | .pdict e o => e.isSome || o

/-- `isinstance(data, dict)`. -/
def isDict : BData → Bool
  | .pdict _ _ => true
  | _ => false

/-- `data.get("error")` (None for non-dicts). -/
def getError : BData → Option String
  | .pdict e _ => e
  | _ => none

/-- Truthiness of `data.get("error")`: present and a nonempty string. -/
def errTruthy (d : BData) : Bool :=
  match getError d with
  | some s => s != ""
  | none => false

/-- `data and not (isinstance(data, dict) and data.get("error"))`. -/
def isSuccess (d : BData) : Bool :=
  truthy d && !(isDict d && errTruthy d)

/-- `data.get("error", "Unknown error") if isinstance(data, dict) else
"No data"`. -/
def errMsg (d : BData) : String :=
  if isDict d then (getError d).getD "Unknown error" else "No data"

/-- What one gathered task produced: the raised exception's `str`, or the
returned data value. -/
inductive TaskRes where
  | exc (msg : String)
  | ret (d : BData)
deriving DecidableEq, Repr

/-- The aggregate returned by `process` (`errors` is the plain list; the code
returns `None` in place of an empty list, which does not affect counts). -/
structure BatchResult where
  results : List (String × BData)
  count : Nat
  total : Nat
  errors : List String
deriving DecidableEq, Repr

/-- Python dict assignment `success[identifier] = data`: replace in place
when the key is present, else append. -/
def pyDictInsertP {V : Type} (l : List (String × V)) (k : String) (v : V) :
    List (String × V) :=
  if l.any (fun e => e.1 == k) then
    l.map (fun e => if e.1 == k then (k, v) else e)
  else
    l ++ [(k, v)]

/-- One iteration of the classification loop over gathered results. -/
def step (acc : List (String × BData) × List String) (x : String × TaskRes) :
    List (String × BData) × List String :=
  match x.2 with
  | .exc m => (acc.1, acc.2 ++ [m])
  | .ret d =>
    if isSuccess d then (pyDictInsertP acc.1 x.1 d, acc.2)
    else (acc.1, acc.2 ++ [x.1 ++ ": " ++ errMsg d])

/-- `BatchProcessor.process`, over the list of (identifier, task outcome)
pairs in submission order. -/
def process (items : List (String × TaskRes)) : BatchResult :=
  let se := items.foldl step ([], [])
  { results := se.1, count := se.1.length, total := items.length, errors := se.2 }

/-- The successes contributed by a run, in order (one per item classified as
a success). -/
def succsOf (items : List (String × TaskRes)) : List (String × BData) :=
  items.filterMap fun x =>
    match x.2 with
    | .ret d => if isSuccess d then some (x.1, d) else none
    | .exc _ => none

/-- The error entries contributed by a run, in order. -/
def errsOf (items : List (String × TaskRes)) : List String :=
  items.filterMap fun x =>
    match x.2 with
    | .exc m => some m
    | .ret d => if isSuccess d then none else some (x.1 ++ ": " ++ errMsg d)

lemma foldl_errors (items : List (String × TaskRes)) :
    ∀ s e, (items.foldl step (s, e)).2 = e ++ errsOf items := by
  induction items with
  | nil => intro s e; simp [errsOf]
  | cons x xs ih =>
    intro s e
    obtain ⟨idk, tr⟩ := x
    cases tr with
    | exc m =>
      simp only [List.foldl_cons, step, errsOf, List.filterMap_cons]
      rw [ih]
      simp [errsOf, List.append_assoc]
    | ret d =>
      by_cases hs : isSuccess d
      · simp only [List.foldl_cons, step, hs, if_true, errsOf, List.filterMap_cons]
        rw [ih]
        simp [errsOf, hs]
      · simp only [List.foldl_cons, step, hs, if_false, errsOf, List.filterMap_cons]
        rw [ih]
        simp [errsOf, hs, List.append_assoc]

lemma pyDictInsertP_fresh {V : Type} (l : List (String × V)) (k : String) (v : V)
    (h : ∀ y ∈ l, y.1 ≠ k) : pyDictInsertP l k v = l ++ [(k, v)] := by
  unfold pyDictInsertP
  rw [if_neg]
  intro ha
  obtain ⟨y, hy, hk⟩ := List.any_eq_true.mp ha
  exact h y hy (by simpa using hk)

lemma foldl_results (items : List (String × TaskRes)) :
    ∀ s e, (∀ x ∈ items, ∀ y ∈ s, y.1 ≠ x.1) → (items.map Prod.fst).Nodup →
      (items.foldl step (s, e)).1 = s ++ succsOf items := by
  induction items with
  | nil => intro s e _ _; simp [succsOf]
  | cons x xs ih =>
    intro s e hfresh hnd
    obtain ⟨idk, tr⟩ := x
    have hnd' : (idk :: xs.map Prod.fst).Nodup := hnd
    have hnd2 : (xs.map Prod.fst).Nodup := (List.nodup_cons.mp hnd').2
    have hidk : ∀ x2 ∈ xs, x2.1 ≠ idk := by
      intro x2 hx2 heq
      exact (List.nodup_cons.mp hnd').1 (heq ▸ List.mem_map_of_mem Prod.fst hx2)
    cases tr with
    | exc m =>
      rw [List.foldl_cons,
        show step (s, e) (idk, TaskRes.exc m) = (s, e ++ [m]) from rfl]
      rw [ih s (e ++ [m]) (fun x2 hx2 y hy => hfresh x2 (List.mem_cons_of_mem _ hx2) y hy)
        hnd2]
      simp [succsOf]
    | ret d =>
      by_cases hs : isSuccess d
      · rw [List.foldl_cons,
          show step (s, e) (idk, TaskRes.ret d) = (pyDictInsertP s idk d, e)
            from if_pos hs]
        have hins : pyDictInsertP s idk d = s ++ [(idk, d)] := by
          apply pyDictInsertP_fresh
          intro y hy
          exact hfresh (idk, .ret d) (List.mem_cons_self _ _) y hy
        rw [hins]
        have hfresh2 : ∀ x2 ∈ xs, ∀ y ∈ s ++ [(idk, d)], y.1 ≠ x2.1 := by
          intro x2 hx2 y hy
          rcases List.mem_append.mp hy with hys | hyk
          · exact hfresh x2 (List.mem_cons_of_mem _ hx2) y hys
          · have hyd : y = (idk, d) := by simpa using hyk
            rw [hyd]
            exact (hidk x2 hx2).symm
        rw [ih (s ++ [(idk, d)]) e hfresh2 hnd2]
        simp [succsOf, hs, List.append_assoc]
      · rw [List.foldl_cons,
          show step (s, e) (idk, TaskRes.ret d) = (s, e ++ [idk ++ ": " ++ errMsg d])
            from if_neg hs]
        rw [ih s (e ++ [idk ++ ": " ++ errMsg d])
          (fun x2 hx2 y hy => hfresh x2 (List.mem_cons_of_mem _ hx2) y hy) hnd2]
        simp [succsOf, hs]

lemma succs_errs_length (items : List (String × TaskRes)) :
    (succsOf items).length + (errsOf items).length = items.length := by
  induction items with
  | nil => rfl
  | cons x xs ih =>
    obtain ⟨idk, tr⟩ := x
    cases tr with
    | exc m =>
      simp only [succsOf, errsOf, List.filterMap_cons] at ih ⊢
      simp only [List.length_cons]
      omega
    | ret d =>
      by_cases hs : isSuccess d
      · simp only [succsOf, errsOf, List.filterMap_cons, hs, if_true] at ih ⊢
        simp only [List.length_cons]
        omega
      · simp only [succsOf, errsOf, List.filterMap_cons] at ih ⊢
        simp only [show (if isSuccess d = true then some ((idk, d) : String × BData)
            else none) = none from if_neg hs]
        simp only [show (if isSuccess d = true then (none : Option String)
            else some (idk ++ ": " ++ errMsg d)) = some (idk ++ ": " ++ errMsg d)
          from if_neg hs]
        simp only [List.length_cons]
        omega

end Batch

/-- The C8 demonstration input: two items sharing the identifier "A", each
returning a dict that carries an "error" field with the empty-string value. -/
def c8Items : List (String × Batch.TaskRes) :=
  [("A", .ret (.pdict (some "") false)), ("A", .ret (.pdict (some "") false))]

/-- C8 counterexample: two submitted items with the same identifier, each
returning a dict that carries an "error" key (with the falsy value ""), are
BOTH classified as successes (contradicting "only when ... not a dict
carrying an error field") and collapse to a single entry of the successes
dict, so successCount + len(errors) = 1 + 0 ≠ 2 = totalCount — the items are
not accounted for exactly once. -/
theorem claim_C8_batch_accounting_counterexample :
    (Batch.process c8Items).total = 2 ∧
    (Batch.process c8Items).count = 1 ∧
    (Batch.process c8Items).errors = [] ∧
    (Batch.process c8Items).count + (Batch.process c8Items).errors.length
      ≠ (Batch.process c8Items).total ∧
    Batch.isDict (.pdict (some "") false) = true ∧
    (Batch.getError (.pdict (some "") false)).isSome = true ∧
    ("A", Batch.BData.pdict (some "") false) ∈ (Batch.process c8Items).results := by
  decide

/-- C8 amended: when the submitted identifiers are pairwise distinct, each
item is accounted for exactly once — it lands in the successes dict exactly
when its payload is truthy and is not a dict whose "error" value is truthy
(a dict with an empty-string "error" value counts as a success), and
otherwise contributes one entry to the error list ("{identifier}: {message}",
or the bare exception string when the task raised) — so
successCount + len(errors) = totalCount = number of submitted items, even
when all items fail. -/
theorem claim_C8_batch_accounting_amended (items : List (String × Batch.TaskRes))
    (hnd : (items.map Prod.fst).Nodup) :
    (Batch.process items).count + (Batch.process items).errors.length
      = (Batch.process items).total ∧
    (Batch.process items).total = items.length ∧
    (∀ idk d, (idk, Batch.TaskRes.ret d) ∈ items → Batch.isSuccess d = true →
       (idk, d) ∈ (Batch.process items).results) ∧
    (∀ idk d, (idk, Batch.TaskRes.ret d) ∈ items → Batch.isSuccess d = false →
       (idk ++ ": " ++ Batch.errMsg d) ∈ (Batch.process items).errors) ∧
    (∀ idk m, (idk, Batch.TaskRes.exc m) ∈ items → m ∈ (Batch.process items).errors) := by
  have hres : (Batch.process items).results = Batch.succsOf items := by
    show (items.foldl Batch.step ([], [])).1 = _
    rw [Batch.foldl_results items [] [] (fun x _ y hy => absurd hy (List.not_mem_nil y))
      hnd]
    simp
  have herr : (Batch.process items).errors = Batch.errsOf items := by
    show (items.foldl Batch.step ([], [])).2 = _
    rw [Batch.foldl_errors items [] []]
    simp
  have hcount : (Batch.process items).count = (Batch.succsOf items).length := by
    show (items.foldl Batch.step ([], [])).1.length = _
    rw [Batch.foldl_results items [] [] (fun x _ y hy => absurd hy (List.not_mem_nil y))
      hnd]
    simp
  have htot : (Batch.process items).total = items.length := rfl
  refine ⟨?_, htot, ?_, ?_, ?_⟩
  · rw [hcount, herr, htot]
    exact Batch.succs_errs_length items
  · intro idk d hmem hs
    rw [hres]
    exact List.mem_filterMap.mpr ⟨(idk, .ret d), hmem, by simp [hs]⟩
  · intro idk d hmem hs
    rw [herr]
    exact List.mem_filterMap.mpr ⟨(idk, .ret d), hmem, by simp [hs]⟩
  · intro idk m hmem
    rw [herr]
    exact List.mem_filterMap.mpr ⟨(idk, .exc m), hmem, rfl⟩

/-- Concrete instantiation of C8 amended: three distinct-identifier items —
one good payload, one raising task, one empty payload — give one success, two
error entries, and 1 + 2 = 3 = totalCount. -/
theorem claim_C8_batch_accounting_amended_witness :
    ((Batch.process [("A", .ret (.plist true)), ("B", .exc "boom"),
        ("C", .ret .pynone)]).count
      + (Batch.process [("A", .ret (.plist true)), ("B", .exc "boom"),
          ("C", .ret .pynone)]).errors.length
      = (Batch.process [("A", .ret (.plist true)), ("B", .exc "boom"),
          ("C", .ret .pynone)]).total) ∧
    ("A", Batch.BData.plist true)
      ∈ (Batch.process [("A", .ret (.plist true)), ("B", .exc "boom"),
          ("C", .ret .pynone)]).results ∧
    "boom" ∈ (Batch.process [("A", .ret (.plist true)), ("B", .exc "boom"),
        ("C", .ret .pynone)]).errors :=
  ⟨(claim_C8_batch_accounting_amended _ (by decide)).1,
   (claim_C8_batch_accounting_amended _ (by decide)).2.2.1 "A" (.plist true)
     (by decide) (by decide),
   (claim_C8_batch_accounting_amended _ (by decide)).2.2.2.2 "B" "boom" (by decide)⟩

end EODHD
